/-
Verification of the vector-search adapter and movie CRUD service.

The development shallowly embeds two modules:
  * `vectorSearchService` (backend discriminator, `stringToNumericId`,
    `upsertMovieEmbeddings`, `semanticSearch`), and
  * `movieService` (`getMovieById`, `getMoviesByIds`,
    `searchMoviesByEmbedding`, `getAllMovies`, `updateMovie`, `deleteMovie`).

JavaScript `Map` objects are embedded as association lists with in-place
update (`mapSet`), which matches the `Map` semantics used by the source:
insertion order is preserved, setting an existing key replaces its value.
Backend clients are embedded as a record of optional capability bundles,
one per duck-typed shape probe (`search`, `index`, `baseUrl`); each bundle
carries the responses the backend would give to the calls issued in one
request.  Backend failures (thrown exceptions of the underlying network
clients) are modelled with `Except`.  Scores and vector components are
rationals: the source only ever compares and subtracts scores, and for
IEEE doubles in [0,1] those operations agree with exact arithmetic on the
ordering facts proved here.
-/
import Mathlib

set_option linter.unusedVariables false

deriving instance DecidableEq for Except

namespace AdvDb

/-! ### JavaScript `Map` embedding -/

/-- JS `map.get(k)`: first (and, once keys are unique, only) binding. -/
def mapGet {β : Type} (m : List (String × β)) (k : String) : Option β :=
  match m with
  | [] => none
  | (k', v) :: rest => if k' = k then some v else mapGet rest k

/-- JS `map.set(k, v)`: replace the value in place if `k` is bound,
otherwise append the new binding at the end (insertion order). -/
def mapSet {β : Type} (m : List (String × β)) (k : String) (v : β) :
    List (String × β) :=
  match m with
  | [] => [(k, v)]
  | (k', v') :: rest =>
    if k' = k then (k, v) :: rest else (k', v') :: mapSet rest k v

/-- JS `new Map(pairs)`: iterated `set`. -/
def mapOfPairs {β : Type} (l : List (String × β)) : List (String × β) :=
  l.foldl (fun mp p => mapSet mp p.1 p.2) []

/-- JS `Array.from(map.values())`: values in insertion order. -/
def mapValues {β : Type} (m : List (String × β)) : List β :=
  m.map Prod.snd

/-- The keys of a JS map are pairwise distinct. -/
def nodupKeys {β : Type} (m : List (String × β)) : Prop :=
  (m.map Prod.fst).Nodup

/-! ### SHA-256 (Node `createHash('sha256')`)

Bytes are `Nat` values below 256, 32-bit words are `Nat` values reduced
modulo `2 ^ 32` after every arithmetic step, exactly as the algorithm
specifies. -/

/-- Truncate to a 32-bit word. -/
def w32 (n : Nat) : Nat := n % 2 ^ 32

/-- Right rotation of a 32-bit word. -/
def rotr32 (x k : Nat) : Nat := w32 ((x >>> k) ||| (x <<< (32 - k)))

def shaCh (x y z : Nat) : Nat := (x &&& y) ^^^ ((x ^^^ 0xffffffff) &&& z)

def shaMaj (x y z : Nat) : Nat := (x &&& y) ^^^ (x &&& z) ^^^ (y &&& z)

def bigSigma0 (x : Nat) : Nat := rotr32 x 2 ^^^ rotr32 x 13 ^^^ rotr32 x 22

def bigSigma1 (x : Nat) : Nat := rotr32 x 6 ^^^ rotr32 x 11 ^^^ rotr32 x 25

def smallSigma0 (x : Nat) : Nat := rotr32 x 7 ^^^ rotr32 x 18 ^^^ (x >>> 3)

def smallSigma1 (x : Nat) : Nat := rotr32 x 17 ^^^ rotr32 x 19 ^^^ (x >>> 10)

/-- The 64 SHA-256 round constants. -/
def sha256K : List Nat :=
  [1116352408, 1899447441, 3049323471, 3921009573, 961987163,
   1508970993, 2453635748, 2870763221, 3624381080, 310598401,
   607225278, 1426881987, 1925078388, 2162078206, 2614888103,
   3248222580, 3835390401, 4022224774, 264347078, 604807628,
   770255983, 1249150122, 1555081692, 1996064986, 2554220882,
   2821834349, 2952996808, 3210313671, 3336571891, 3584528711,
   113926993, 338241895, 666307205, 773529912, 1294757372,
   1396182291, 1695183700, 1986661051, 2177026350, 2456956037,
   2730485921, 2820302411, 3259730800, 3345764771, 3516065817,
   3600352804, 4094571909, 275423344, 430227734, 506948616,
   659060556, 883997877, 958139571, 1322822218, 1537002063,
   1747873779, 1955562222, 2024104815, 2227730452, 2361852424,
   2428436474, 2756734187, 3204031479, 3329325298]

/-- The initial SHA-256 hash state. -/
def sha256H0 : List Nat :=
  [1779033703, 3144134277, 1013904242, 2773480762,
   1359893119, 2600822924, 528734635, 1541459225]

/-- A `Nat` below `2 ^ (8 * n)` as `n` big-endian bytes. -/
def bytesBE (n : Nat) (x : Nat) : List Nat :=
  (List.range n).map (fun i => (x >>> (8 * (n - 1 - i))) &&& 0xff)

/-- SHA-256 message padding: `0x80`, zeros to 56 mod 64, then the bit
length as a 64-bit big-endian integer. -/
def padMessage (msg : List Nat) : List Nat :=
  msg ++ [0x80] ++ List.replicate ((119 - msg.length % 64) % 64) 0 ++
    bytesBE 8 (8 * msg.length)

/-- Split a byte list into 64-byte blocks. -/
def chunks64 : List Nat → List (List Nat)
  | [] => []
  | a :: rest => (a :: rest).take 64 :: chunks64 ((a :: rest).drop 64)
termination_by l => l.length
decreasing_by
  simp only [List.length_drop, List.length_cons]
  omega

/-- Big-endian 32-bit word `i` of a 64-byte block. -/
def blockWord (chunk : List Nat) (i : Nat) : Nat :=
  (chunk.getD (4 * i) 0 <<< 24) ||| (chunk.getD (4 * i + 1) 0 <<< 16) |||
    (chunk.getD (4 * i + 2) 0 <<< 8) ||| chunk.getD (4 * i + 3) 0

/-- The 64-entry SHA-256 message schedule of one block. -/
def messageSchedule (chunk : List Nat) : List Nat :=
  let w0 := (List.range 16).map (blockWord chunk)
  (List.range 48).foldl
    (fun w i =>
      w ++ [w32 (smallSigma1 (w.getD (i + 14) 0) + w.getD (i + 9) 0 +
        smallSigma0 (w.getD (i + 1) 0) + w.getD i 0)])
    w0

/-- One SHA-256 compression round. -/
def shaRound (st : Nat × Nat × Nat × Nat × Nat × Nat × Nat × Nat)
    (kw : Nat × Nat) : Nat × Nat × Nat × Nat × Nat × Nat × Nat × Nat :=
  match st, kw with
  | (a, b, c, d, e, f, g, h), (ki, wi) =>
    let t1 := w32 (h + bigSigma1 e + shaCh e f g + ki + wi)
    let t2 := w32 (bigSigma0 a + shaMaj a b c)
    (w32 (t1 + t2), a, b, c, w32 (d + t1), e, f, g)

/-- Compress one 64-byte block into the running hash state. -/
def compressBlock (H : List Nat) (chunk : List Nat) : List Nat :=
  let w := messageSchedule chunk
  let init := (H.getD 0 0, H.getD 1 0, H.getD 2 0, H.getD 3 0,
    H.getD 4 0, H.getD 5 0, H.getD 6 0, H.getD 7 0)
  match (sha256K.zip w).foldl shaRound init with
  | (a, b, c, d, e, f, g, h) =>
    [w32 (H.getD 0 0 + a), w32 (H.getD 1 0 + b), w32 (H.getD 2 0 + c),
     w32 (H.getD 3 0 + d), w32 (H.getD 4 0 + e), w32 (H.getD 5 0 + f),
     w32 (H.getD 6 0 + g), w32 (H.getD 7 0 + h)]

/-- SHA-256 digest (32 bytes) of a byte message. -/
def sha256Bytes (msg : List Nat) : List Nat :=
  (((chunks64 (padMessage msg)).foldl compressBlock sha256H0).map
    (bytesBE 4)).flatten

/-- UTF-8 encoding of one unicode scalar value, as Node's
`hash.update(str)` (default utf8) produces it. -/
def utf8BytesOfChar (c : Char) : List Nat :=
  let n := c.toNat
  if n < 0x80 then [n]
  else if n < 0x800 then
    [0xc0 ||| (n >>> 6), 0x80 ||| (n &&& 0x3f)]
  else if n < 0x10000 then
    [0xe0 ||| (n >>> 12), 0x80 ||| ((n >>> 6) &&& 0x3f),
     0x80 ||| (n &&& 0x3f)]
  else
    [0xf0 ||| (n >>> 18), 0x80 ||| ((n >>> 12) &&& 0x3f),
     0x80 ||| ((n >>> 6) &&& 0x3f), 0x80 ||| (n &&& 0x3f)]

/-- UTF-8 bytes of a string. -/
def utf8Encode (s : String) : List Nat :=
  (s.data.map utf8BytesOfChar).flatten

/-- Node `buffer.readBigUInt64BE(0)`: the first 8 bytes of a buffer as an
unsigned 64-bit big-endian integer. -/
def readUInt64BE (bytes : List Nat) : Nat :=
  (List.range 8).foldl (fun acc i => acc * 256 + bytes.getD i 0) 0

/-- JavaScript `Number.MAX_SAFE_INTEGER`. -/
def maxSafeInteger : Nat := 2 ^ 53 - 1

/-- `stringToNumericId` (vectorSearchService): SHA-256 the string, read
the first 8 bytes as an unsigned 64-bit big-endian integer, reduce modulo
`Number.MAX_SAFE_INTEGER`.  The remainder is below `2 ^ 53 - 1`, so the
final `Number(bigInt % ...)` conversion is exact and the result is a
non-negative integer. -/
def stringToNumericId (s : String) : Nat :=
  readUInt64BE (sha256Bytes (utf8Encode s)) % maxSafeInteger

/-! ### Data model

The payload / metadata objects attached to vectors carry (at most) the
`movieId`, `source` and `originalId` fields the source ever writes or
reads; the values are strings.  `Option` models a possibly-absent
(JS `undefined`) field. -/

structure Payload where
  movieId : Option String
  source : Option String
  originalId : Option String
deriving DecidableEq

/-- The empty payload object `{}`. -/
def emptyPayload : Payload := ⟨none, none, none⟩

/-- Normalized search result (`VectorMatch` in vectorSearchService). -/
structure VectorMatch where
  id : String
  score : ℚ
  payload : Payload
deriving DecidableEq

/-- `JSON.stringify`-free JS `String(x)` on a possibly-undefined string:
an absent value prints as `"undefined"`. -/
def jsString (o : Option String) : String :=
  match o with
  | some s => s
  | none => "undefined"

/-! ### Backend clients

A client is embedded as a record of three optional capability bundles,
one per duck-typed shape probe of the source (`search` property for
Qdrant, `index` for Pinecone, `baseUrl` for Chroma).  A bundle holds the
backend's response to each call the adapter may issue during one request;
`Except Unit` models a call that may throw.  A real `QdrantClient` /
`Pinecone` instance always has the probed property on its prototype, so
the `instanceof` half of each probe is subsumed by property presence. -/

/-- Response of Qdrant `getCollection`. -/
structure CollectionInfo where
  points_count : Option Nat
deriving DecidableEq

/-- One element of a Qdrant search response. -/
structure QdrantRespPoint where
  id : String
  score : Option ℚ
  payload : Option Payload
deriving DecidableEq

structure QdrantApi where
  /-- Result of `client.getCollection(env.VECTOR_COLLECTION)`. -/
  getCollection : Except Unit CollectionInfo
  /-- Result of `client.search(...)`; `none` models a null/non-array
  response. -/
  search : Except Unit (Option (List QdrantRespPoint))
  /-- Result of `client.upsert(...)`. -/
  upsert : Except Unit Unit

/-- One element of `queryResponse.matches` from Pinecone. -/
structure PineconeMatch where
  id : String
  score : Option ℚ
  metadata : Option Payload
deriving DecidableEq

structure PineconeResponse where
  «matches» : Option (List PineconeMatch)
deriving DecidableEq

structure PineconeApi where
  /-- Result of `index.query(...)`. -/
  query : Except Unit PineconeResponse
  /-- Result of `index.upsert(...)`. -/
  upsert : Except Unit Unit

/-- Body of the Chroma REST `query` response. -/
structure ChromaQueryResult where
  ids : Option (List (List String))
  distances : Option (List (List ℚ))
  metadatas : Option (List (List Payload))
deriving DecidableEq

structure ChromaApi where
  baseUrl : String
  collection : String
  /-- Result of the `POST .../query` call. -/
  query : Except Unit ChromaQueryResult
  /-- Result of the `POST .../add` call. -/
  add : Except Unit Unit

/-- An opaque client value, described by which shape probes succeed. -/
structure Client where
  /-- `some` iff the client has a defined `search` property. -/
  qdrant? : Option QdrantApi
  /-- `some` iff the client has a defined `index` property. -/
  pinecone? : Option PineconeApi
  /-- `some` iff the client has a defined `baseUrl` property. -/
  chroma? : Option ChromaApi

/-- `isQdrant` (vectorSearchService): `client.search !== undefined`. -/
def isQdrant (c : Client) : Bool := c.qdrant?.isSome

/-- `isPinecone`: `client.index !== undefined`. -/
def isPinecone (c : Client) : Bool := c.pinecone?.isSome

/-- `isChroma`: `client.baseUrl !== undefined`. -/
def isChroma (c : Client) : Bool := c.chroma?.isSome

/-- The errors the adapter itself can produce: the two `throw new Error`
sites, plus a propagated backend exception. -/
inductive VsError where
  | noEmbeddings
  | unsupportedProvider
  | backendErr
deriving DecidableEq

/-- A Qdrant point as built by the Qdrant upsert branch. -/
structure QdrantPoint where
  id : Nat
  vector : List ℚ
  movieId : String
  source : String
  originalId : String
deriving DecidableEq

/-- A Pinecone vector as built by the Pinecone upsert branch. -/
structure PineconeVector where
  id : String
  values : List ℚ
  movieId : String
  source : String
deriving DecidableEq

/-- A write request issued to a backend. -/
inductive WriteCall where
  | qdrant (points : List QdrantPoint)
  | pinecone (vectors : List PineconeVector)
  | chroma (ids : List String) (embeddings : List (List ℚ))
      (metadatas : List (String × String))
deriving DecidableEq

/-! ### `upsertMovieEmbeddings`

The result carries the adapter's return value (or error) together with
the list of backend write requests issued during the call. -/

def qdrantUpsertBody (api : QdrantApi) (movieId : String)
    (embeddings : List (String × List ℚ)) :
    Except VsError (List (String × String)) × List WriteCall :=
  let points : List QdrantPoint := embeddings.map (fun e =>
    { id := stringToNumericId (movieId ++ ":" ++ e.1), vector := e.2,
      movieId := movieId, source := e.1,
      originalId := movieId ++ ":" ++ e.1 })
  (match api.upsert with
   | .error _ => .error .backendErr
   | .ok _ => .ok (points.map (fun p => (p.source, toString p.id))),
   [.qdrant points])

def pineconeUpsertBody (api : PineconeApi) (movieId : String)
    (embeddings : List (String × List ℚ)) :
    Except VsError (List (String × String)) × List WriteCall :=
  let vectors : List PineconeVector := embeddings.map (fun e =>
    { id := movieId ++ ":" ++ e.1, values := e.2, movieId := movieId,
      source := e.1 })
  (match api.upsert with
   | .error _ => .error .backendErr
   | .ok _ => .ok (vectors.map (fun v => (v.source, v.id))),
   [.pinecone vectors])

def chromaUpsertBody (api : ChromaApi) (movieId : String)
    (embeddings : List (String × List ℚ)) :
    Except VsError (List (String × String)) × List WriteCall :=
  let vectors : List PineconeVector := embeddings.map (fun e =>
    { id := movieId ++ ":" ++ e.1, values := e.2, movieId := movieId,
      source := e.1 })
  (match api.add with
   | .error _ => .error .backendErr
   | .ok _ => .ok (vectors.map (fun v => (v.source, v.id))),
   [.chroma (vectors.map (fun v => v.id)) (vectors.map (fun v => v.values))
     (vectors.map (fun v => (v.movieId, v.source)))])

/-- `upsertMovieEmbeddings`: empty-mapping check first, then dispatch by
shape probes in the order Qdrant, Pinecone, Chroma. -/
def upsertMovieEmbeddings (c : Client) (movieId : String)
    (embeddings : List (String × List ℚ)) :
    Except VsError (List (String × String)) × List WriteCall :=
  if embeddings.isEmpty then (.error .noEmbeddings, [])
  else
    match c.qdrant? with
    | some api => qdrantUpsertBody api movieId embeddings
    | none =>
      match c.pinecone? with
      | some api => pineconeUpsertBody api movieId embeddings
      | none =>
        match c.chroma? with
        | some api => chromaUpsertBody api movieId embeddings
        | none => (.error .unsupportedProvider, [])

/-! ### `semanticSearch` -/

/-- Qdrant branch of `semanticSearch`.  The whole branch is wrapped in a
`try/catch` that logs and returns `[]`, with an inner `try/catch` around
`getCollection` doing the same; hence the branch never fails. -/
def qdrantSearchBody (api : QdrantApi) : List VectorMatch :=
  match api.getCollection with
  | .error _ => []
  | .ok info =>
    if info.points_count = some 0 then []
    else
      match api.search with
      | .error _ => []
      | .ok none => []
      | .ok (some points) =>
        points.map (fun p =>
          { id := p.id, score := p.score.getD 0,
            payload := p.payload.getD emptyPayload })

/-- Pinecone branch of `semanticSearch`: no `try/catch`, a query failure
propagates. -/
def pineconeSearchBody (api : PineconeApi) :
    Except VsError (List VectorMatch) :=
  match api.query with
  | .error _ => .error .backendErr
  | .ok resp =>
    .ok ((resp.«matches».getD []).map (fun m =>
      { id := m.id, score := m.score.getD 0,
        payload := m.metadata.getD emptyPayload }))

/-- `results.distances?.[0] || []`. -/
def chromaDistances0 (r : ChromaQueryResult) : List ℚ :=
  match r.distances with
  | none => []
  | some ll => ll.getD 0 []

/-- `results.metadatas?.[0] || []`. -/
def chromaMetadatas0 (r : ChromaQueryResult) : List Payload :=
  match r.metadatas with
  | none => []
  | some ll => ll.getD 0 []

/-- The match list built from a Chroma query response.  For index `idx`
the source computes `1 - (distances[idx] || 0)`; on rationals
`d || 0` is `d` itself when the entry is present (`0` is falsy but
`0 || 0 = 0`) and `0` when it is absent, i.e. `getD idx 0`. -/
def chromaMatchList (r : ChromaQueryResult) : List VectorMatch :=
  match r.ids with
  | none => []
  | some [] => []
  | some (ids0 :: _) =>
    ids0.enum.map (fun p =>
      { id := p.2, score := 1 - (chromaDistances0 r).getD p.1 0,
        payload := (chromaMetadatas0 r).getD p.1 emptyPayload })

/-- Chroma branch of `semanticSearch`: no `try/catch`, a query failure
propagates. -/
def chromaSearchBody (api : ChromaApi) : Except VsError (List VectorMatch) :=
  match api.query with
  | .error _ => .error .backendErr
  | .ok r => .ok (chromaMatchList r)

/-- `semanticSearch`: dispatch by shape probes in the order Qdrant,
Pinecone, Chroma; no match throws unsupported-provider.  `embedding` and
`limit` only shape the outgoing request, whose response the capability
bundle already fixes. -/
def semanticSearch (c : Client) (embedding : List ℚ) (limit : Nat) :
    Except VsError (List VectorMatch) :=
  match c.qdrant? with
  | some api => .ok (qdrantSearchBody api)
  | none =>
    match c.pinecone? with
    | some api => pineconeSearchBody api
    | none =>
      match c.chroma? with
      | some api => chromaSearchBody api
      | none => .error .unsupportedProvider

/-! ### Movie documents and the document store

The MongoDB collection is embedded as a list of documents in storage
order; `_id` is the ObjectId rendered as its hex string.  Mongoose's
virtual `id` getter returns exactly that string.  `metadata` values are
kept as opaque strings (the source never inspects them). -/

structure MovieDocument where
  _id : String
  title : String
  genres : List String
  cast : List String
  director : Option String
  releaseYear : Option Int
  plot : Option String
  trailerUrl : Option String
  posterUrl : Option String
  rating : Option ℚ
  metadata : List (String × String)
  embeddingKeys : List (String × String)
deriving DecidableEq

/-- Mongoose virtual `movie.id`: the `_id` as a string. -/
def MovieDocument.id (m : MovieDocument) : String := m._id

/-- A `Partial<CreateMovieDTO>` update payload: only the present fields
are `$set`. -/
structure MovieUpdate where
  title : Option String
  genres : Option (List String)
  cast : Option (List String)
  director : Option String
  releaseYear : Option Int
  plot : Option String
  trailerUrl : Option String
  posterUrl : Option String
  rating : Option ℚ
  metadata : Option (List (String × String))
deriving DecidableEq

/-- The update payload with no fields present. -/
def emptyUpdate : MovieUpdate :=
  ⟨none, none, none, none, none, none, none, none, none, none⟩

/-- `findByIdAndUpdate(id, { $set: payload })` applied to one document. -/
def applyUpdate (m : MovieDocument) (u : MovieUpdate) : MovieDocument :=
  { m with
    title := u.title.getD m.title,
    genres := u.genres.getD m.genres,
    cast := u.cast.getD m.cast,
    director := match u.director with | some d => some d | none => m.director,
    releaseYear := match u.releaseYear with
      | some y => some y
      | none => m.releaseYear,
    plot := match u.plot with | some p => some p | none => m.plot,
    trailerUrl := match u.trailerUrl with
      | some t => some t
      | none => m.trailerUrl,
    posterUrl := match u.posterUrl with
      | some p => some p
      | none => m.posterUrl,
    rating := match u.rating with | some r => some r | none => m.rating,
    metadata := u.metadata.getD m.metadata }

/-- `Types.ObjectId.isValid` on a string: a 24-character hex string, or
any 12-character string (12 bytes). -/
def isHexChar (c : Char) : Bool :=
  (('0' ≤ c) && (c ≤ '9')) || (('a' ≤ c) && (c ≤ 'f')) ||
    (('A' ≤ c) && (c ≤ 'F'))

def isValidObjectId (s : String) : Bool :=
  (s.length == 24 && s.data.all isHexChar) || s.length == 12

/-- `getMovieById`: invalid format short-circuits to `null`, otherwise
`findById`. -/
def getMovieById (store : List MovieDocument) (id : String) :
    Option MovieDocument :=
  if isValidObjectId id then store.find? (fun m => m._id = id) else none

/-- `getMoviesByIds`: filter the valid ids, bulk-`find` them (`$in`
returns documents in storage order), build an id-keyed `Map`, then walk
the input list through the map and drop the misses. -/
def getMoviesByIds (store : List MovieDocument) (ids : List String) :
    List MovieDocument :=
  let objectIds := ids.filter isValidObjectId
  if objectIds.isEmpty then []
  else
    let movies := store.filter (fun m => objectIds.contains m._id)
    let movieMap := mapOfPairs (movies.map (fun m => (m.id, m)))
    ids.filterMap (fun i => mapGet movieMap i)

/-- `String(match.payload.movieId)`. -/
def matchKey (m : VectorMatch) : String := jsString m.payload.movieId

/-- The scores of the raw matches owned by entity key `k`. -/
def scoresFor (ms : List VectorMatch) (k : String) : List ℚ :=
  (ms.filter (fun m => decide (matchKey m = k))).map VectorMatch.score

/-- The `movieMap` of `searchMoviesByEmbedding`: each loaded movie is
indexed under `movie.id || movie._id?.toString()` and under
`String(movie._id)` (the same string here, both sets are kept); an empty
key is falsy and skips both sets. -/
def buildMovieMap (movies : List MovieDocument) :
    List (String × MovieDocument) :=
  movies.foldl
    (fun mp movie =>
      if movie.id = "" then mp
      else mapSet (mapSet mp movie.id movie) movie._id movie)
    []

/-- The `movieScoreMap` accumulation of `searchMoviesByEmbedding`:
resolve each raw match through `movieMap` (a miss logs a warning and is
skipped) and keep the highest-scoring match per movie id. -/
def dedupeFold (movieMap : List (String × MovieDocument)) :
    List VectorMatch → List (String × (MovieDocument × ℚ)) →
      List (String × (MovieDocument × ℚ))
  | [], acc => acc
  | m :: rest, acc =>
    match mapGet movieMap (matchKey m) with
    | none => dedupeFold movieMap rest acc
    | some movie =>
      match mapGet acc (matchKey m) with
      | none =>
        dedupeFold movieMap rest (mapSet acc (matchKey m) (movie, m.score))
      | some ex =>
        if ex.2 < m.score then
          dedupeFold movieMap rest (mapSet acc (matchKey m) (movie, m.score))
        else dedupeFold movieMap rest acc

/-- `searchMoviesByEmbedding`: over-fetch `limit * 2` raw matches, load
the referenced movies, deduplicate by movie id keeping the best score,
sort by score descending (`(a, b) => b.score - a.score`, a stable sort on
exact score comparisons) and truncate to `limit`. -/
def searchMoviesByEmbedding (c : Client) (store : List MovieDocument)
    (embedding : List ℚ) (limit : Nat) :
    Except VsError (List (MovieDocument × ℚ)) :=
  match semanticSearch c embedding (limit * 2) with
  | .error e => .error e
  | .ok ms =>
    if ms.isEmpty then .ok []
    else
      let ids := (ms.map matchKey).filter (fun s => decide (s ≠ ""))
      if ids.isEmpty then .ok []
      else
        let movieMap := buildMovieMap (getMoviesByIds store ids)
        let deduped := dedupeFold movieMap ms []
        .ok (((mapValues deduped).mergeSort
          (fun a b => decide (b.2 ≤ a.2))).take limit)

/-- Sort direction of `getAllMovies`. -/
inductive SortOrder where
  | asc
  | desc
deriving DecidableEq

/-- Return shape of `getAllMovies`. -/
structure PagedMovies where
  movies : List MovieDocument
  total : Nat
  page : Nat
  totalPages : Int
deriving DecidableEq

/-- `getAllMovies`: skip/limit pagination over the sorted collection,
with `totalPages = Math.ceil(total / limit)`.  The dynamic `sortBy` field
access is embedded as a sort-key function.  `Math.ceil` of the real
quotient is the rational ceiling (exact for every realistic collection
size). -/
def getAllMovies (store : List MovieDocument) (page limit : Nat)
    (sortKey : MovieDocument → Int) (sortOrder : SortOrder) : PagedMovies :=
  let cmp : MovieDocument → MovieDocument → Bool :=
    match sortOrder with
    | .asc => fun a b => decide (sortKey a ≤ sortKey b)
    | .desc => fun a b => decide (sortKey b ≤ sortKey a)
  { movies := ((store.mergeSort cmp).drop ((page - 1) * limit)).take limit,
    total := store.length,
    page := page,
    totalPages := Int.ceil ((store.length : ℚ) / (limit : ℚ)) }

/-- `updateMovie`: invalid format short-circuits to `null` with the store
untouched; otherwise `findByIdAndUpdate` with `{ new: true }` returns the
updated document.  The fire-and-forget re-embedding call touches neither
the store nor the response and is not modelled. -/
def updateMovie (store : List MovieDocument) (id : String)
    (payload : MovieUpdate) : Option MovieDocument × List MovieDocument :=
  if isValidObjectId id then
    match store.find? (fun m => m._id = id) with
    | none => (none, store)
    | some doc =>
      let doc' := applyUpdate doc payload
      (some doc', store.map (fun m => if m._id = id then doc' else m))
  else (none, store)

/-- `deleteMovie`: invalid format short-circuits to `false` with the
store untouched; otherwise `findByIdAndDelete` and report whether a
document was removed. -/
def deleteMovie (store : List MovieDocument) (id : String) :
    Bool × List MovieDocument :=
  if isValidObjectId id then
    match store.find? (fun m => m._id = id) with
    | none => (false, store)
    | some _ => (true, store.eraseP (fun m => decide (m._id = id)))
  else (false, store)

/-- The invariant of the `movieScoreMap` fold: keys are distinct, each
entry resolves through `movieMap` and carries the best score seen so far
for its key, and keys without an entry have no processed match. -/
def DedupInv (movieMap : List (String × MovieDocument))
    (done : List VectorMatch)
    (acc : List (String × (MovieDocument × ℚ))) : Prop :=
  nodupKeys acc ∧
  ∀ k : String,
    (∀ mv s, mapGet acc k = some (mv, s) →
      mapGet movieMap k = some mv ∧ s ∈ scoresFor done k ∧
        ∀ x ∈ scoresFor done k, x ≤ s) ∧
    (mapGet acc k = none → scoresFor done k = [])

/-- The tail of `searchMoviesByEmbedding`:
`Array.from(movieScoreMap.values()).sort((a, b) => b.score - a.score)
.slice(0, limit)` applied to the fold result. -/
def mergedResults (movieMap : List (String × MovieDocument))
    (ms : List VectorMatch) (limit : Nat) : List (MovieDocument × ℚ) :=
  ((mapValues (dedupeFold movieMap ms [])).mergeSort
    (fun a b => decide (b.2 ≤ a.2))).take limit

/-! ### Map lemmas -/

theorem mapGet_mapSet {β : Type} (m : List (String × β)) (k0 k : String)
    (v : β) :
    mapGet (mapSet m k0 v) k = if k0 = k then some v else mapGet m k := by
  induction m with
  | nil => simp [mapSet, mapGet]
  | cons p rest ih =>
    obtain ⟨k', v'⟩ := p
    by_cases h : k' = k0
    · subst h
      simp [mapSet, mapGet]
      by_cases hk : k' = k <;> simp [hk, mapGet]
    · simp [mapSet, h, mapGet]
      by_cases hk : k' = k
      · subst hk
        have : ¬ k0 = k' := fun hh => h hh.symm
        simp [this, mapGet]
      · simp [hk, ih]

theorem keys_mapSet {β : Type} (m : List (String × β)) (k : String) (v : β) :
    (mapSet m k v).map Prod.fst =
      if k ∈ m.map Prod.fst then m.map Prod.fst
      else m.map Prod.fst ++ [k] := by
  induction m with
  | nil => simp [mapSet]
  | cons p rest ih =>
    obtain ⟨k', v'⟩ := p
    by_cases hk : k' = k
    · subst hk
      simp [mapSet]
    · have hk' : ¬ k = k' := fun hh => hk hh.symm
      simp [mapSet, hk, hk', ih]
      by_cases hmem : k ∈ rest.map Prod.fst <;> simp [hmem, hk']

theorem nodupKeys_mapSet {β : Type} (m : List (String × β)) (k : String)
    (v : β) (h : nodupKeys m) : nodupKeys (mapSet m k v) := by
  unfold nodupKeys at h ⊢
  rw [keys_mapSet]
  by_cases hmem : k ∈ m.map Prod.fst
  · simpa [hmem] using h
  · simp [hmem, List.nodup_append, h]

theorem mapGet_eq_none {β : Type} (m : List (String × β)) (k : String) :
    mapGet m k = none ↔ k ∉ m.map Prod.fst := by
  induction m with
  | nil => simp [mapGet]
  | cons p rest ih =>
    obtain ⟨k', v'⟩ := p
    by_cases hk : k' = k
    · subst hk
      simp [mapGet]
    · have hk' : ¬ k = k' := fun hh => hk hh.symm
      simp [mapGet, hk, hk', ih]

theorem mapGet_of_mem_nodup {β : Type} (m : List (String × β)) (k : String)
    (v : β) (hnd : nodupKeys m) (hmem : (k, v) ∈ m) :
    mapGet m k = some v := by
  induction m with
  | nil => simp at hmem
  | cons p rest ih =>
    obtain ⟨k', v'⟩ := p
    unfold nodupKeys at hnd
    simp at hnd
    rcases List.mem_cons.mp hmem with heq | hrest
    · cases heq
      simp [mapGet]
    · have hk : k' ≠ k := by
        intro hh
        subst hh
        exact hnd.1 v hrest
      simp [mapGet, hk]
      exact ih hnd.2 hrest

theorem mapGet_eq_find? {β : Type} (m : List (String × β)) (k : String) :
    mapGet m k = (m.find? (fun p => p.1 = k)).map Prod.snd := by
  induction m with
  | nil => simp [mapGet]
  | cons p rest ih =>
    obtain ⟨k', v'⟩ := p
    by_cases hk : k' = k <;> simp [mapGet, hk, List.find?, ih]

/-! ### Claims -/

/-- Claim C1: `stringToNumericId` SHA-256-hashes the input, reads the
first 8 digest bytes as an unsigned 64-bit big-endian integer and reduces
it modulo `Number.MAX_SAFE_INTEGER` (which is how `stringToNumericId` is
defined above); hence hashing the same string twice yields the same
numeric id, and the result — a natural number, so non-negative — is
strictly below `Number.MAX_SAFE_INTEGER`. -/
theorem stringToNumericId_det_and_safe (s₁ s₂ : String) (h : s₁ = s₂) :
    stringToNumericId s₁ = stringToNumericId s₂ ∧
      stringToNumericId s₁ < maxSafeInteger := by
  subst h
  refine ⟨rfl, ?_⟩
  unfold stringToNumericId
  exact Nat.mod_lt _ (by decide)

/-- Witness for C1 at the composite key `"movie123:title"`. -/
theorem stringToNumericId_det_and_safe_witness :
    "movie123:title" = "movie123:title" ∧
      (stringToNumericId "movie123:title" =
          stringToNumericId "movie123:title" ∧
        stringToNumericId "movie123:title" < maxSafeInteger) :=
  ⟨rfl, stringToNumericId_det_and_safe "movie123:title" "movie123:title" rfl⟩

/-- Claim C5: `upsertMovieEmbeddings` fails with the no-embeddings error
on an empty mapping — before any backend write, for every client — and
fails with the unsupported-provider error whenever no shape probe
matches (the empty-mapping check runs first, so the unsupported-provider
error is observed on non-empty input). -/
theorem upsertMovieEmbeddings_error_paths (c : Client) (movieId : String)
    (embeddings : List (String × List ℚ)) :
    (embeddings = [] →
      upsertMovieEmbeddings c movieId embeddings =
        (.error .noEmbeddings, [])) ∧
    (embeddings ≠ [] → c.qdrant? = none → c.pinecone? = none →
      c.chroma? = none →
      upsertMovieEmbeddings c movieId embeddings =
        (.error .unsupportedProvider, [])) := by
  constructor
  · intro h
    subst h
    rfl
  · intro hne hq hp hc
    unfold upsertMovieEmbeddings
    rw [hq, hp, hc]
    simp [List.isEmpty_iff, hne]

/-- Witness for C5: both error paths at concrete inputs. -/
theorem upsertMovieEmbeddings_error_paths_witness :
    upsertMovieEmbeddings ⟨none, none, none⟩ "m1" [] =
        (.error .noEmbeddings, []) ∧
      upsertMovieEmbeddings ⟨none, none, none⟩ "m1" [("title", [1])] =
        (.error .unsupportedProvider, []) :=
  ⟨(upsertMovieEmbeddings_error_paths ⟨none, none, none⟩ "m1" []).1 rfl,
   (upsertMovieEmbeddings_error_paths ⟨none, none, none⟩ "m1"
      [("title", [1])]).2 (by simp) rfl rfl rfl⟩

/-- Claim C4: on the Qdrant shape, a failing collection-info call or a
reported `points_count` of 0 short-circuits `semanticSearch` to an empty
list — no error, and the search query is never consulted (`api.search`
is universally quantified, so the result cannot depend on it). -/
theorem semanticSearch_qdrant_empty_collection (c : Client)
    (api : QdrantApi) (embedding : List ℚ) (limit : Nat)
    (hc : c.qdrant? = some api)
    (h : api.getCollection = .error () ∨
      ∃ info, api.getCollection = .ok info ∧ info.points_count = some 0) :
    semanticSearch c embedding limit = .ok [] := by
  unfold semanticSearch
  rw [hc]
  rcases h with h | ⟨info, h1, h2⟩
  · simp [qdrantSearchBody, h]
  · simp [qdrantSearchBody, h1, h2]

/-- Witness for C4: both the missing-collection and the empty-collection
cases, with a search behaviour that would return a point if it were
issued. -/
theorem semanticSearch_qdrant_empty_collection_witness :
    semanticSearch
        ⟨some ⟨.error (), .ok (some [⟨"p", some 1, none⟩]), .ok ()⟩,
          none, none⟩ [1] 5 = .ok [] ∧
      semanticSearch
        ⟨some ⟨.ok ⟨some 0⟩, .ok (some [⟨"p", some 1, none⟩]), .ok ()⟩,
          none, none⟩ [1] 5 = .ok [] :=
  ⟨semanticSearch_qdrant_empty_collection _
      ⟨.error (), .ok (some [⟨"p", some 1, none⟩]), .ok ()⟩ [1] 5 rfl
      (Or.inl rfl),
   semanticSearch_qdrant_empty_collection _
      ⟨.ok ⟨some 0⟩, .ok (some [⟨"p", some 1, none⟩]), .ok ()⟩ [1] 5 rfl
      (Or.inr ⟨⟨some 0⟩, rfl, rfl⟩)⟩

/-- Counterexample to claim C3 as stated: a Pinecone-shape client — a
supported provider — whose backend query call fails makes
`semanticSearch` propagate the failure rather than return an empty list,
so "supported backends never throw except for unsupported provider" is
false at this input. -/
theorem semanticSearch_pinecone_error_propagates :
    isPinecone ⟨none, some ⟨.error (), .ok ()⟩, none⟩ = true ∧
      semanticSearch ⟨none, some ⟨.error (), .ok ()⟩, none⟩ [1] 10 =
        .error .backendErr :=
  ⟨rfl, rfl⟩

/-- Claim C3, amended: only the Qdrant branch swallows backend-level
query failures (it always returns a list, in particular `[]` when the
search call fails); on the Pinecone and Chroma shapes a failing query
propagates, and an unsupported shape is the remaining throwing path. -/
theorem semanticSearch_error_policy (c : Client) (papi : PineconeApi)
    (capi : ChromaApi) (embedding : List ℚ) (limit : Nat) :
    (isQdrant c = true →
      ∃ ms, semanticSearch c embedding limit = .ok ms) ∧
    (∀ api info, c.qdrant? = some api → api.getCollection = .ok info →
      info.points_count ≠ some 0 → api.search = .error () →
      semanticSearch c embedding limit = .ok []) ∧
    (c.qdrant? = none → c.pinecone? = some papi →
      papi.query = .error () →
      semanticSearch c embedding limit = .error .backendErr) ∧
    (c.qdrant? = none → c.pinecone? = none → c.chroma? = some capi →
      capi.query = .error () →
      semanticSearch c embedding limit = .error .backendErr) ∧
    (c.qdrant? = none → c.pinecone? = none → c.chroma? = none →
      semanticSearch c embedding limit = .error .unsupportedProvider) := by
  refine ⟨?_, ?_, ?_, ?_, ?_⟩
  · intro hq
    obtain ⟨api, hapi⟩ := Option.isSome_iff_exists.mp hq
    exact ⟨qdrantSearchBody api, by unfold semanticSearch; rw [hapi]⟩
  · intro api info hapi hcoll hpts hsearch
    unfold semanticSearch
    rw [hapi]
    simp [qdrantSearchBody, hcoll, hpts, hsearch]
  · intro hq hp hfail
    unfold semanticSearch
    rw [hq, hp]
    simp [pineconeSearchBody, hfail]
  · intro hq hp hc hfail
    unfold semanticSearch
    rw [hq, hp, hc]
    simp [chromaSearchBody, hfail]
  · intro hq hp hc
    unfold semanticSearch
    rw [hq, hp, hc]

/-- Witness for the amended C3: all five conjuncts at concrete clients. -/
theorem semanticSearch_error_policy_witness :
    (∃ ms, semanticSearch
        ⟨some ⟨.ok ⟨some 2⟩, .ok (some [⟨"p", some 1, none⟩]), .ok ()⟩,
          none, none⟩ [1] 3 = .ok ms) ∧
      semanticSearch ⟨some ⟨.ok ⟨some 2⟩, .error (), .ok ()⟩, none, none⟩
          [1] 3 = .ok [] ∧
      semanticSearch ⟨none, some ⟨.error (), .ok ()⟩, none⟩ [1] 3 =
        .error .backendErr ∧
      semanticSearch ⟨none, none, some ⟨"u", "c", .error (), .ok ()⟩⟩
          [1] 3 = .error .backendErr ∧
      semanticSearch ⟨none, none, none⟩ [1] 3 =
        .error .unsupportedProvider := by
  refine ⟨?_, ?_, ?_, ?_, ?_⟩
  · exact (semanticSearch_error_policy _ ⟨.ok ⟨none⟩, .ok ()⟩
      ⟨"u", "c", .ok ⟨none, none, none⟩, .ok ()⟩ [1] 3).1 rfl
  · exact (semanticSearch_error_policy _ ⟨.ok ⟨none⟩, .ok ()⟩
      ⟨"u", "c", .ok ⟨none, none, none⟩, .ok ()⟩ [1] 3).2.1
      ⟨.ok ⟨some 2⟩, .error (), .ok ()⟩ ⟨some 2⟩ rfl rfl (by simp) rfl
  · exact (semanticSearch_error_policy _ ⟨.error (), .ok ()⟩
      ⟨"u", "c", .ok ⟨none, none, none⟩, .ok ()⟩ [1] 3).2.2.1 rfl rfl rfl
  · exact (semanticSearch_error_policy _ ⟨.ok ⟨none⟩, .ok ()⟩
      ⟨"u", "c", .error (), .ok ()⟩ [1] 3).2.2.2.1 rfl rfl rfl rfl
  · exact (semanticSearch_error_policy _ ⟨.ok ⟨none⟩, .ok ()⟩
      ⟨"u", "c", .ok ⟨none, none, none⟩, .ok ()⟩ [1] 3).2.2.2.2 rfl rfl rfl

/-- Claim C9: an identifier that is not a valid ObjectId makes
`getMovieById` and `updateMovie` return `null` and `deleteMovie` return
`false`, with no thrown validation error and the store untouched. -/
theorem invalid_id_not_found (store : List MovieDocument) (id : String)
    (payload : MovieUpdate) (h : isValidObjectId id = false) :
    getMovieById store id = none ∧
      updateMovie store id payload = (none, store) ∧
      deleteMovie store id = (false, store) := by
  unfold getMovieById updateMovie deleteMovie
  simp [h]

/-- Witness for C9 at the malformed identifier `"not-an-objectid"`. -/
theorem invalid_id_not_found_witness :
    isValidObjectId "not-an-objectid" = false ∧
      getMovieById [] "not-an-objectid" = none ∧
      updateMovie [] "not-an-objectid" emptyUpdate = (none, []) ∧
      deleteMovie [] "not-an-objectid" = (false, []) := by
  have h := invalid_id_not_found [] "not-an-objectid" emptyUpdate
    (by decide)
  exact ⟨by decide, h.1, h.2.1, h.2.2⟩

/-- Claim C6: on the Chroma shape — the backend reporting distances —
each reported distance `d` becomes the similarity score `1 - d`. -/
theorem semanticSearch_chroma_distance_conversion (c : Client)
    (api : ChromaApi) (r : ChromaQueryResult) (ids0 : List String)
    (idsRest : List (List String)) (d0 : List ℚ)
    (dRest : List (List ℚ)) (embedding : List ℚ) (limit : Nat)
    (hq : c.qdrant? = none) (hp : c.pinecone? = none)
    (hc : c.chroma? = some api) (hquery : api.query = .ok r)
    (hids : r.ids = some (ids0 :: idsRest))
    (hd : r.distances = some (d0 :: dRest))
    (hlen : d0.length = ids0.length) :
    ∃ ms, semanticSearch c embedding limit = .ok ms ∧
      ms.map VectorMatch.score = d0.map (fun d => 1 - d) := by
  have hsem : semanticSearch c embedding limit = chromaSearchBody api := by
    unfold semanticSearch
    rw [hq, hp, hc]
  have hbody : chromaSearchBody api = .ok (chromaMatchList r) := by
    unfold chromaSearchBody
    rw [hquery]
  refine ⟨chromaMatchList r, by rw [hsem, hbody], ?_⟩
  unfold chromaMatchList
  rw [hids]
  have hdist : chromaDistances0 r = d0 := by
    unfold chromaDistances0
    rw [hd]
    rfl
  rw [hdist]
  apply List.ext_getElem
  · simp [hlen]
  · intro i h1 h2
    simp only [List.getElem_map, List.getElem_enum]
    have hi : i < d0.length := by simpa using h2
    rw [List.getD_eq_getElem d0 0 hi]

/-- Witness for C6: distances 0 and 1 become scores 1 and 0. -/
theorem semanticSearch_chroma_distance_conversion_witness :
    ∃ ms, semanticSearch
        ⟨none, none, some ⟨"u", "col",
          .ok ⟨some [["a", "b"]], some [[0, 1]], none⟩, .ok ()⟩⟩ [1] 5 =
        .ok ms ∧
      ms.map VectorMatch.score = ([0, 1] : List ℚ).map (fun d => 1 - d) :=
  semanticSearch_chroma_distance_conversion _
    ⟨"u", "col", .ok ⟨some [["a", "b"]], some [[0, 1]], none⟩, .ok ()⟩
    ⟨some [["a", "b"]], some [[0, 1]], none⟩ ["a", "b"] [] [0, 1] []
    [1] 5 rfl rfl rfl rfl rfl rfl (by decide)

/-- Claim C10: backend classification is precedence-ordered, not
mutually exclusive — every shape probe only tests property presence, so
a client whose `search` property is defined is handled by the Qdrant
branch of both `semanticSearch` and `upsertMovieEmbeddings` no matter
what its `index` and `baseUrl` properties look like (the other two
capability bundles of `c` are arbitrary here), and a client with `index`
but no `search` is handled by the Pinecone branch no matter what
`baseUrl` looks like. -/
theorem backend_dispatch_precedence (c : Client) (qapi : QdrantApi)
    (papi : PineconeApi) (movieId : String)
    (embeddings : List (String × List ℚ)) (embedding : List ℚ)
    (limit : Nat) :
    (c.qdrant? = some qapi →
      semanticSearch c embedding limit = .ok (qdrantSearchBody qapi) ∧
      (embeddings ≠ [] →
        upsertMovieEmbeddings c movieId embeddings =
          qdrantUpsertBody qapi movieId embeddings)) ∧
    (c.qdrant? = none → c.pinecone? = some papi →
      semanticSearch c embedding limit = pineconeSearchBody papi ∧
      (embeddings ≠ [] →
        upsertMovieEmbeddings c movieId embeddings =
          pineconeUpsertBody papi movieId embeddings)) := by
  constructor
  · intro hq
    constructor
    · unfold semanticSearch
      rw [hq]
    · intro hne
      unfold upsertMovieEmbeddings
      rw [hq]
      simp [List.isEmpty_iff, hne]
  · intro hq hp
    constructor
    · unfold semanticSearch
      rw [hq, hp]
    · intro hne
      unfold upsertMovieEmbeddings
      rw [hq, hp]
      simp [List.isEmpty_iff, hne]

/-- Witness for C10: a client exposing all three shape markers is
dispatched to Qdrant, and one exposing `index` and `baseUrl` but not
`search` is dispatched to Pinecone. -/
theorem backend_dispatch_precedence_witness :
    (semanticSearch
        ⟨some ⟨.ok ⟨some 1⟩, .ok (some []), .ok ()⟩,
          some ⟨.ok ⟨none⟩, .ok ()⟩,
          some ⟨"u", "col", .ok ⟨none, none, none⟩, .ok ()⟩⟩ [1] 4 =
      .ok (qdrantSearchBody ⟨.ok ⟨some 1⟩, .ok (some []), .ok ()⟩) ∧
      upsertMovieEmbeddings
        ⟨some ⟨.ok ⟨some 1⟩, .ok (some []), .ok ()⟩,
          some ⟨.ok ⟨none⟩, .ok ()⟩,
          some ⟨"u", "col", .ok ⟨none, none, none⟩, .ok ()⟩⟩ "m"
        [("title", [1])] =
      qdrantUpsertBody ⟨.ok ⟨some 1⟩, .ok (some []), .ok ()⟩ "m"
        [("title", [1])]) ∧
    (semanticSearch
        ⟨none, some ⟨.ok ⟨none⟩, .ok ()⟩,
          some ⟨"u", "col", .ok ⟨none, none, none⟩, .ok ()⟩⟩ [1] 4 =
      pineconeSearchBody ⟨.ok ⟨none⟩, .ok ()⟩ ∧
      upsertMovieEmbeddings
        ⟨none, some ⟨.ok ⟨none⟩, .ok ()⟩,
          some ⟨"u", "col", .ok ⟨none, none, none⟩, .ok ()⟩⟩ "m"
        [("title", [1])] =
      pineconeUpsertBody ⟨.ok ⟨none⟩, .ok ()⟩ "m" [("title", [1])]) := by
  constructor
  · have h := (backend_dispatch_precedence
      ⟨some ⟨.ok ⟨some 1⟩, .ok (some []), .ok ()⟩,
        some ⟨.ok ⟨none⟩, .ok ()⟩,
        some ⟨"u", "col", .ok ⟨none, none, none⟩, .ok ()⟩⟩
      ⟨.ok ⟨some 1⟩, .ok (some []), .ok ()⟩ ⟨.ok ⟨none⟩, .ok ()⟩ "m"
      [("title", [1])] [1] 4).1 rfl
    exact ⟨h.1, h.2 (by simp)⟩
  · have h := (backend_dispatch_precedence
      ⟨none, some ⟨.ok ⟨none⟩, .ok ()⟩,
        some ⟨"u", "col", .ok ⟨none, none, none⟩, .ok ()⟩⟩
      ⟨.ok ⟨some 1⟩, .ok (some []), .ok ()⟩ ⟨.ok ⟨none⟩, .ok ()⟩ "m"
      [("title", [1])] [1] 4).2 rfl rfl
    exact ⟨h.1, h.2 (by simp)⟩

/-- `Math.ceil(n / m)` on naturals is `(n + m - 1) / m`. -/
theorem ceilDiv_rat (n m : Nat) (hm : 0 < m) :
    Int.ceil ((n : ℚ) / (m : ℚ)) = ((n + m - 1) / m : Nat) := by
  have hdm := Nat.div_add_mod (n + m - 1) m
  have hmod := Nat.mod_lt (n + m - 1) hm
  generalize hqe : (n + m - 1) / m = q at hdm
  generalize hre : (n + m - 1) % m = r at hdm hmod
  have key1 : n ≤ m * q := by omega
  have key2 : m * q < n + m := by omega
  have hmq : (0 : ℚ) < (m : ℚ) := by exact_mod_cast hm
  rw [Int.ceil_eq_iff]
  constructor
  · rw [lt_div_iff₀ hmq]
    have h2 : (m : ℚ) * q < n + m := by exact_mod_cast key2
    push_cast
    nlinarith [h2]
  · rw [div_le_iff₀ hmq]
    have h1 : (n : ℚ) ≤ m * q := by exact_mod_cast key1
    push_cast
    nlinarith [h1]

/-- Claim C8: `getAllMovies` reports `totalPages = ceil(total / limit)`
— equivalently the natural number `(total + limit - 1) / limit` — and on
page 1 it returns `min limit total` records (so 45 records with limit 20
give 20 records and 3 total pages, as the witness instantiates). -/
theorem getAllMovies_pagination (store : List MovieDocument)
    (page limit : Nat) (sortKey : MovieDocument → Int)
    (sortOrder : SortOrder) (hl : 0 < limit) :
    (getAllMovies store page limit sortKey sortOrder).totalPages =
      ((store.length + limit - 1) / limit : Nat) ∧
    (page = 1 →
      (getAllMovies store page limit sortKey sortOrder).movies.length =
        min limit store.length) := by
  constructor
  · exact ceilDiv_rat store.length limit hl
  · intro hp
    subst hp
    simp [getAllMovies, List.length_take, List.length_mergeSort]

/-- Witness for C8: 45 records, page 1, limit 20 gives 3 total pages and
20 returned records. -/
theorem getAllMovies_pagination_witness :
    (0 : Nat) < 20 ∧
      (getAllMovies
        (List.replicate 45
          ⟨"507f1f77bcf86cd799439011", "t", [], [], none, none, none,
            none, none, none, [], []⟩) 1 20 (fun _ => 0) .desc).totalPages
        = 3 ∧
      (getAllMovies
        (List.replicate 45
          ⟨"507f1f77bcf86cd799439011", "t", [], [], none, none, none,
            none, none, none, [], []⟩) 1 20 (fun _ => 0) .desc).movies.length
        = 20 := by
  have h := getAllMovies_pagination
    (List.replicate 45
      ⟨"507f1f77bcf86cd799439011", "t", [], [], none, none, none,
        none, none, none, [], []⟩) 1 20 (fun _ => 0) .desc (by decide)
  refine ⟨by decide, ?_, ?_⟩
  · rw [h.1]
    decide
  · rw [h.2 rfl]
    decide

/-! ### Lemmas for `getMoviesByIds` (claim C7) -/

/-- A left fold of `set`s looks up as: last binding in the pair list if
any, otherwise the accumulator. -/
theorem mapGet_foldl_mapSet {β : Type} (l : List (String × β))
    (acc : List (String × β)) (k : String) :
    mapGet (l.foldl (fun mp p => mapSet mp p.1 p.2) acc) k =
      match l.reverse.find? (fun p => decide (p.1 = k)) with
      | some p => some p.2
      | none => mapGet acc k := by
  induction l generalizing acc with
  | nil => simp
  | cons p l ih =>
    simp only [List.foldl_cons, List.reverse_cons, List.find?_append]
    rw [ih]
    cases hfind : l.reverse.find? (fun p => decide (p.1 = k)) with
    | some q => simp
    | none =>
      simp only [Option.none_or]
      rw [mapGet_mapSet]
      by_cases hk : p.1 = k
      · simp [List.find?, hk]
      · simp [List.find?, hk]

/-- With pairwise-distinct keys, the first match from either end is the
unique match. -/
theorem find?_reverse_nodupKeys {β : Type} (l : List (String × β))
    (k : String) (h : nodupKeys l) :
    l.reverse.find? (fun p => decide (p.1 = k)) =
      l.find? (fun p => decide (p.1 = k)) := by
  induction l with
  | nil => simp
  | cons p l ih =>
    obtain ⟨k0, v0⟩ := p
    unfold nodupKeys at h
    simp only [List.map_cons, List.nodup_cons] at h
    simp only [List.reverse_cons, List.find?_append]
    rw [ih h.2]
    by_cases hk : k0 = k
    · subst hk
      have hnone : l.find? (fun p => decide (p.1 = k0)) = none := by
        rw [List.find?_eq_none]
        intro x hx hpx
        exact h.1 (by
          simp only [decide_eq_true_eq] at hpx
          exact hpx ▸ List.mem_map_of_mem Prod.fst hx)
      simp [hnone, List.find?]
    · cases hfind : l.find? (fun p => decide (p.1 = k)) with
      | some q => simp [List.find?, hk, hfind]
      | none => simp [List.find?, hk, hfind]

/-- `new Map(pairs)` with distinct keys looks up like the pair list
itself. -/
theorem mapGet_mapOfPairs_nodup {β : Type} (l : List (String × β))
    (k : String) (h : nodupKeys l) :
    mapGet (mapOfPairs l) k =
      (l.find? (fun p => decide (p.1 = k))).map Prod.snd := by
  unfold mapOfPairs
  rw [mapGet_foldl_mapSet, find?_reverse_nodupKeys l k h]
  cases hfind : l.find? (fun p => decide (p.1 = k)) <;> simp [mapGet]

/-- Restricting the store to ids drawn from `objectIds` and then looking
for id `i` is looking for `i` directly, gated on `i`'s membership. -/
theorem find?_filter_contains (store : List MovieDocument)
    (objectIds : List String) (i : String) :
    (store.filter (fun m => objectIds.contains m._id)).find?
        (fun m => decide (m._id = i)) =
      if i ∈ objectIds then
        store.find? (fun m => decide (m._id = i))
      else none := by
  rw [List.find?_filter]
  by_cases hin : i ∈ objectIds
  · rw [if_pos hin]
    congr 1
    funext a
    by_cases h : a._id = i
    · rw [h]
      simp [hin]
    · simp [h]
  · rw [if_neg hin]
    rw [List.find?_eq_none]
    intro x hx hpx
    by_cases h : x._id = i
    · rw [h] at hpx
      simp [hin] at hpx
    · simp [h] at hpx

/-- Claim C7: with distinct stored ids, `getMoviesByIds` returns exactly
the found documents in input order — for each input identifier, the
stored document with that id if the identifier is well-formed and
present, and nothing (silently) otherwise. -/
theorem getMoviesByIds_order (store : List MovieDocument)
    (ids : List String)
    (hnd : (store.map MovieDocument._id).Nodup) :
    getMoviesByIds store ids =
      ids.filterMap (fun i =>
        if isValidObjectId i then store.find? (fun m => decide (m._id = i))
        else none) := by
  unfold getMoviesByIds
  by_cases hempty : (ids.filter isValidObjectId).isEmpty
  · rw [if_pos hempty]
    have hall : ∀ i ∈ ids, ¬ isValidObjectId i := by
      intro i hi
      exact List.filter_eq_nil_iff.mp (List.isEmpty_iff.mp hempty) i hi
    symm
    rw [List.filterMap_eq_nil_iff]
    intro i hi
    simp [hall i hi]
  · rw [if_neg hempty]
    apply List.filterMap_congr
    intro i hi
    have hndm : nodupKeys
        ((store.filter
            (fun m => (ids.filter isValidObjectId).contains m._id)).map
          (fun m => (m.id, m))) := by
      unfold nodupKeys
      rw [List.map_map]
      have : (Prod.fst ∘ fun m : MovieDocument => (m.id, m)) =
          MovieDocument._id := rfl
      rw [this]
      exact ((List.filter_sublist store).map MovieDocument._id).nodup hnd
    rw [mapGet_mapOfPairs_nodup _ _ hndm]
    rw [List.find?_map]
    have hcomp : ((fun p : String × MovieDocument => decide (p.1 = i)) ∘
        fun m : MovieDocument => (m.id, m)) =
        fun m : MovieDocument => decide (m._id = i) := rfl
    rw [hcomp, Option.map_map]
    have hsnd : (Prod.snd ∘ fun m : MovieDocument => (m.id, m)) =
        fun m => m := rfl
    rw [hsnd, find?_filter_contains]
    cases hv : isValidObjectId i with
    | true =>
      have hmem : i ∈ ids.filter isValidObjectId :=
        List.mem_filter.mpr ⟨hi, hv⟩
      rw [if_pos hmem]
      simp
    | false =>
      have hmem : i ∉ ids.filter isValidObjectId := by
        intro hcc
        have := (List.mem_filter.mp hcc).2
        rw [hv] at this
        exact Bool.false_ne_true this
      rw [if_neg hmem]
      simp

/-- Witness for C7: one found id, one missing id, one malformed id and a
duplicate, in scrambled order. -/
theorem getMoviesByIds_order_witness :
    ((([⟨"507f1f77bcf86cd799439011", "A", [], [], none, none, none, none,
          none, none, [], []⟩,
        ⟨"507f1f77bcf86cd799439012", "B", [], [], none, none, none, none,
          none, none, [], []⟩] :
        List MovieDocument).map MovieDocument._id).Nodup ∧
      getMoviesByIds
        [⟨"507f1f77bcf86cd799439011", "A", [], [], none, none, none, none,
            none, none, [], []⟩,
          ⟨"507f1f77bcf86cd799439012", "B", [], [], none, none, none, none,
            none, none, [], []⟩]
        ["507f1f77bcf86cd799439012", "bad", "507f1f77bcf86cd799439099",
          "507f1f77bcf86cd799439011", "507f1f77bcf86cd799439012"] =
        [⟨"507f1f77bcf86cd799439012", "B", [], [], none, none, none, none,
            none, none, [], []⟩,
          ⟨"507f1f77bcf86cd799439011", "A", [], [], none, none, none, none,
            none, none, [], []⟩,
          ⟨"507f1f77bcf86cd799439012", "B", [], [], none, none, none, none,
            none, none, [], []⟩]) := by
  constructor
  · decide
  · rw [getMoviesByIds_order _ _ (by decide)]
    decide

/-! ### Lemmas for `searchMoviesByEmbedding` (claim C2) -/

theorem scoresFor_append (ms1 ms2 : List VectorMatch) (k : String) :
    scoresFor (ms1 ++ ms2) k = scoresFor ms1 k ++ scoresFor ms2 k := by
  simp [scoresFor, List.filter_append]

theorem scoresFor_singleton (m : VectorMatch) (k : String) :
    scoresFor [m] k = if matchKey m = k then [m.score] else [] := by
  by_cases h : matchKey m = k <;> simp [scoresFor, h]

/-- Every value in `buildMovieMap` sits under its own `_id`. -/
theorem mapGet_buildMovieMap_id (movies : List MovieDocument) (k : String)
    (mv : MovieDocument) :
    mapGet (buildMovieMap movies) k = some mv → mv._id = k := by
  suffices hgen : ∀ (l : List MovieDocument)
      (mp : List (String × MovieDocument)),
      (∀ k' mv', mapGet mp k' = some mv' → mv'._id = k') →
      ∀ k' mv', mapGet (l.foldl
        (fun mp movie =>
          if movie.id = "" then mp
          else mapSet (mapSet mp movie.id movie) movie._id movie) mp) k' =
          some mv' → mv'._id = k' by
    intro h
    exact hgen movies [] (fun k' mv' h' => by simp [mapGet] at h') k mv h
  intro l
  induction l with
  | nil => intro mp hmp k' mv' h; exact hmp k' mv' h
  | cons movie l ih =>
    intro mp hmp k' mv' h
    refine ih _ ?_ k' mv' h
    intro k2 mv2 h2
    beta_reduce at h2
    by_cases hskip : movie.id = ""
    · rw [if_pos hskip] at h2
      exact hmp k2 mv2 h2
    · rw [if_neg hskip, mapGet_mapSet] at h2
      by_cases he : movie._id = k2
      · rw [if_pos he] at h2
        cases h2
        exact he
      · rw [if_neg he, mapGet_mapSet] at h2
        by_cases he' : movie.id = k2
        · rw [if_pos he'] at h2
          cases h2
          exact he'
        · rw [if_neg he'] at h2
          exact hmp k2 mv2 h2

theorem DedupInv_set (movieMap : List (String × MovieDocument))
    (done : List VectorMatch)
    (acc : List (String × (MovieDocument × ℚ))) (m : VectorMatch)
    (mv0 : MovieDocument)
    (hmv0 : mapGet movieMap (matchKey m) = some mv0)
    (hinv : DedupInv movieMap done acc)
    (hmax : ∀ x ∈ scoresFor done (matchKey m), x ≤ m.score) :
    DedupInv movieMap (done ++ [m])
      (mapSet acc (matchKey m) (mv0, m.score)) := by
  obtain ⟨hnd, hprops⟩ := hinv
  refine ⟨nodupKeys_mapSet _ _ _ hnd, ?_⟩
  intro k
  rw [mapGet_mapSet]
  by_cases hk : matchKey m = k
  · subst hk
    rw [if_pos rfl]
    have hsc : scoresFor (done ++ [m]) (matchKey m) =
        scoresFor done (matchKey m) ++ [m.score] := by
      rw [scoresFor_append, scoresFor_singleton, if_pos rfl]
    rw [hsc]
    constructor
    · intro mv s hsome
      have heq : (mv0, m.score) = (mv, s) := Option.some.inj hsome
      obtain ⟨h1, h2⟩ := Prod.mk.injEq .. |>.mp heq
      subst h1
      subst h2
      refine ⟨hmv0, List.mem_append_right _ (by simp), ?_⟩
      intro x hx
      rcases List.mem_append.mp hx with hx | hx
      · exact hmax x hx
      · have : x = m.score := by simpa using hx
        exact this.le
    · intro hnone
      exact absurd hnone (by simp)
  · rw [if_neg hk]
    have hsc : scoresFor (done ++ [m]) k = scoresFor done k := by
      rw [scoresFor_append, scoresFor_singleton, if_neg hk, List.append_nil]
    rw [hsc]
    exact hprops k

theorem DedupInv_skip (movieMap : List (String × MovieDocument))
    (done : List VectorMatch)
    (acc : List (String × (MovieDocument × ℚ))) (m : VectorMatch)
    (emv : MovieDocument) (es : ℚ)
    (hget : mapGet acc (matchKey m) = some (emv, es))
    (hle : m.score ≤ es)
    (hinv : DedupInv movieMap done acc) :
    DedupInv movieMap (done ++ [m]) acc := by
  obtain ⟨hnd, hprops⟩ := hinv
  refine ⟨hnd, ?_⟩
  intro k
  by_cases hk : matchKey m = k
  · subst hk
    have hsc : scoresFor (done ++ [m]) (matchKey m) =
        scoresFor done (matchKey m) ++ [m.score] := by
      rw [scoresFor_append, scoresFor_singleton, if_pos rfl]
    rw [hsc]
    constructor
    · intro mv s hsome
      have heq : (emv, es) = (mv, s) :=
        Option.some.inj (hget.symm.trans hsome)
      obtain ⟨h1, h2⟩ := Prod.mk.injEq .. |>.mp heq
      subst h1
      subst h2
      obtain ⟨p1, p2, p3⟩ := (hprops (matchKey m)).1 emv es hget
      refine ⟨p1, List.mem_append_left _ p2, ?_⟩
      intro x hx
      rcases List.mem_append.mp hx with hx | hx
      · exact p3 x hx
      · have : x = m.score := by simpa using hx
        exact this.le.trans hle
    · intro hnone
      rw [hget] at hnone
      exact absurd hnone (by simp)
  · have hsc : scoresFor (done ++ [m]) k = scoresFor done k := by
      rw [scoresFor_append, scoresFor_singleton, if_neg hk, List.append_nil]
    rw [hsc]
    exact hprops k

/-- Unfolding equation for the fold. -/
theorem dedupeFold_cons (movieMap : List (String × MovieDocument))
    (m : VectorMatch) (rest : List VectorMatch)
    (acc : List (String × (MovieDocument × ℚ))) :
    dedupeFold movieMap (m :: rest) acc =
      match mapGet movieMap (matchKey m) with
      | none => dedupeFold movieMap rest acc
      | some movie =>
        match mapGet acc (matchKey m) with
        | none =>
          dedupeFold movieMap rest (mapSet acc (matchKey m) (movie, m.score))
        | some ex =>
          if ex.2 < m.score then
            dedupeFold movieMap rest
              (mapSet acc (matchKey m) (movie, m.score))
          else dedupeFold movieMap rest acc := rfl

theorem dedupeFold_cons_new (movieMap : List (String × MovieDocument))
    (m : VectorMatch) (rest : List VectorMatch)
    (acc : List (String × (MovieDocument × ℚ))) (movie : MovieDocument)
    (hmv : mapGet movieMap (matchKey m) = some movie)
    (hacc : mapGet acc (matchKey m) = none) :
    dedupeFold movieMap (m :: rest) acc =
      dedupeFold movieMap rest (mapSet acc (matchKey m) (movie, m.score)) := by
  rw [dedupeFold_cons, hmv, hacc]

theorem dedupeFold_cons_better (movieMap : List (String × MovieDocument))
    (m : VectorMatch) (rest : List VectorMatch)
    (acc : List (String × (MovieDocument × ℚ))) (movie : MovieDocument)
    (ex : MovieDocument × ℚ)
    (hmv : mapGet movieMap (matchKey m) = some movie)
    (hacc : mapGet acc (matchKey m) = some ex) (hlt : ex.2 < m.score) :
    dedupeFold movieMap (m :: rest) acc =
      dedupeFold movieMap rest (mapSet acc (matchKey m) (movie, m.score)) := by
  rw [dedupeFold_cons, hmv, hacc]
  exact if_pos hlt

theorem dedupeFold_cons_keep (movieMap : List (String × MovieDocument))
    (m : VectorMatch) (rest : List VectorMatch)
    (acc : List (String × (MovieDocument × ℚ))) (movie : MovieDocument)
    (ex : MovieDocument × ℚ)
    (hmv : mapGet movieMap (matchKey m) = some movie)
    (hacc : mapGet acc (matchKey m) = some ex) (hlt : ¬ ex.2 < m.score) :
    dedupeFold movieMap (m :: rest) acc = dedupeFold movieMap rest acc := by
  rw [dedupeFold_cons, hmv, hacc]
  exact if_neg hlt

theorem dedupeFold_inv (movieMap : List (String × MovieDocument))
    (rest : List VectorMatch) :
    ∀ (done : List VectorMatch)
      (acc : List (String × (MovieDocument × ℚ))),
      (∀ m ∈ rest, (mapGet movieMap (matchKey m)).isSome) →
      DedupInv movieMap done acc →
      DedupInv movieMap (done ++ rest) (dedupeFold movieMap rest acc) := by
  induction rest with
  | nil =>
    intro done acc _ hinv
    simpa [dedupeFold] using hinv
  | cons m rest ih =>
    intro done acc hres hinv
    have hm := hres m (List.mem_cons_self m rest)
    obtain ⟨mv0, hmv0⟩ := Option.isSome_iff_exists.mp hm
    have hassoc : done ++ m :: rest = (done ++ [m]) ++ rest := by simp
    rw [hassoc]
    have hres' : ∀ x ∈ rest, (mapGet movieMap (matchKey x)).isSome :=
      fun x hx => hres x (List.mem_cons_of_mem m hx)
    cases hacc : mapGet acc (matchKey m) with
    | none =>
      rw [dedupeFold_cons_new _ _ _ _ _ hmv0 hacc]
      exact ih (done ++ [m]) _ hres'
        (DedupInv_set _ _ _ _ _ hmv0 hinv (by
          rw [(hinv.2 (matchKey m)).2 hacc]
          intro x hx
          simp at hx))
    | some ex =>
      by_cases hlt : ex.2 < m.score
      · rw [dedupeFold_cons_better _ _ _ _ _ _ hmv0 hacc hlt]
        have hmax : ∀ x ∈ scoresFor done (matchKey m), x ≤ m.score := by
          obtain ⟨_, _, p3⟩ := (hinv.2 (matchKey m)).1 ex.1 ex.2
            (by rw [hacc])
          intro x hx
          exact (p3 x hx).trans hlt.le
        exact ih (done ++ [m]) _ hres'
          (DedupInv_set _ _ _ _ _ hmv0 hinv hmax)
      · rw [dedupeFold_cons_keep _ _ _ _ _ _ hmv0 hacc hlt]
        exact ih (done ++ [m]) _ hres'
          (DedupInv_skip _ _ _ _ ex.1 ex.2 (by rw [hacc]) (le_of_not_lt hlt)
            hinv)

theorem mergedResults_spec (movieMap : List (String × MovieDocument))
    (ms : List VectorMatch) (limit : Nat)
    (hres : ∀ m ∈ ms, (mapGet movieMap (matchKey m)).isSome)
    (hmapid : ∀ k mv, mapGet movieMap k = some mv → mv._id = k) :
    ((mergedResults movieMap ms limit).map (fun p => p.1._id)).Nodup ∧
    (∀ p ∈ mergedResults movieMap ms limit,
      p.2 ∈ scoresFor ms p.1._id ∧ ∀ x ∈ scoresFor ms p.1._id, x ≤ p.2) ∧
    (mergedResults movieMap ms limit).Pairwise (fun a b => b.2 ≤ a.2) ∧
    (mergedResults movieMap ms limit).length ≤ limit := by
  unfold mergedResults
  set final := dedupeFold movieMap ms [] with hfinal
  have inv0 : DedupInv movieMap [] [] := by
    constructor
    · simp [nodupKeys]
    · intro k
      constructor
      · intro mv s h
        simp [mapGet] at h
      · intro _
        simp [scoresFor]
  have invF : DedupInv movieMap ms final := by
    rw [hfinal]
    simpa using dedupeFold_inv movieMap ms [] [] hres inv0
  obtain ⟨hndF, hpropsF⟩ := invF
  have hentry : ∀ e ∈ final, mapGet final e.1 = some e.2 := by
    intro e he
    exact mapGet_of_mem_nodup final e.1 e.2 hndF (by simpa using he)
  have hprops : ∀ e ∈ final,
      mapGet movieMap e.1 = some e.2.1 ∧ e.2.2 ∈ scoresFor ms e.1 ∧
        ∀ x ∈ scoresFor ms e.1, x ≤ e.2.2 := by
    intro e he
    refine (hpropsF e.1).1 e.2.1 e.2.2 ?_
    rw [hentry e he]
  have hid : ∀ e ∈ final, e.2.1._id = e.1 :=
    fun e he => hmapid e.1 e.2.1 (hprops e he).1
  have hperm :
      List.Perm ((mapValues final).mergeSort
        (fun a b => decide (b.2 ≤ a.2))) (mapValues final) :=
    List.mergeSort_perm _ _
  refine ⟨?_, ?_, ?_, ?_⟩
  · have hkeys : (mapValues final).map (fun p => p.1._id) =
        final.map Prod.fst := by
      unfold mapValues
      rw [List.map_map]
      exact List.map_congr_left (fun e he => hid e he)
    have hnd1 : ((mapValues final).map (fun p => p.1._id)).Nodup := by
      rw [hkeys]
      exact hndF
    have hnd2 : (((mapValues final).mergeSort
        (fun a b => decide (b.2 ≤ a.2))).map (fun p => p.1._id)).Nodup :=
      ((hperm.map _).nodup_iff).mpr hnd1
    rw [List.map_take]
    exact List.Nodup.sublist (List.take_sublist _ _) hnd2
  · intro p hp
    have hp1 : p ∈ (mapValues final).mergeSort
        (fun a b => decide (b.2 ≤ a.2)) :=
      List.take_subset _ _ hp
    have hp2 : p ∈ final.map Prod.snd := hperm.subset hp1
    obtain ⟨e, he, hpe⟩ := List.mem_map.mp hp2
    subst hpe
    rw [hid e he]
    exact ⟨(hprops e he).2.1, (hprops e he).2.2⟩
  · have htrans : ∀ (a b c : MovieDocument × ℚ),
        (fun a b => decide (b.2 ≤ a.2)) a b →
          (fun a b => decide (b.2 ≤ a.2)) b c →
          (fun a b => decide (b.2 ≤ a.2)) a c := by
      intro a b c h1 h2
      simp only [decide_eq_true_eq] at *
      exact le_trans h2 h1
    have htotal : ∀ (a b : MovieDocument × ℚ),
        (fun a b => decide (b.2 ≤ a.2)) a b ||
          (fun a b => decide (b.2 ≤ a.2)) b a := by
      intro a b
      rcases le_total a.2 b.2 with h | h <;> simp [h]
    have hpair := List.sorted_mergeSort htrans htotal (mapValues final)
    have hpair' : ((mapValues final).mergeSort
        (fun a b => decide (b.2 ≤ a.2))).Pairwise
        (fun a b => b.2 ≤ a.2) :=
      hpair.imp (fun h => by simpa using h)
    exact List.Pairwise.sublist (List.take_sublist _ _) hpair'
  · exact List.length_take_le _ _

/-- The main path of `searchMoviesByEmbedding` in terms of
`mergedResults`. -/
theorem searchMoviesByEmbedding_eq_main (c : Client)
    (store : List MovieDocument) (embedding : List ℚ) (limit : Nat)
    (ms : List VectorMatch)
    (hm : semanticSearch c embedding (limit * 2) = .ok ms)
    (hne : ms.isEmpty = false)
    (hids : ((ms.map matchKey).filter
      (fun s => decide (s ≠ ""))).isEmpty = false) :
    searchMoviesByEmbedding c store embedding limit =
      .ok (mergedResults (buildMovieMap (getMoviesByIds store
        ((ms.map matchKey).filter (fun s => decide (s ≠ ""))))) ms limit) := by
  unfold searchMoviesByEmbedding mergedResults
  rw [hm]
  simp only [hne, hids, Bool.false_eq_true, if_false]

/-- Claim C2: whenever `semanticSearch` returns raw matches whose
payload movie ids all resolve to loaded movies, the result of
`searchMoviesByEmbedding` contains each movie at most once, pairs it
with the maximum score among that movie's raw matches, is sorted by
score descending and has at most `limit` entries. -/
theorem searchMoviesByEmbedding_dedup (c : Client)
    (store : List MovieDocument) (embedding : List ℚ) (limit : Nat)
    (ms : List VectorMatch)
    (hm : semanticSearch c embedding (limit * 2) = .ok ms)
    (hres : ∀ m ∈ ms,
      (mapGet (buildMovieMap (getMoviesByIds store
        ((ms.map matchKey).filter (fun s => decide (s ≠ "")))))
        (matchKey m)).isSome) :
    ∃ out, searchMoviesByEmbedding c store embedding limit = .ok out ∧
      (out.map (fun p => p.1._id)).Nodup ∧
      (∀ p ∈ out, p.2 ∈ scoresFor ms p.1._id ∧
        ∀ x ∈ scoresFor ms p.1._id, x ≤ p.2) ∧
      out.Pairwise (fun a b => b.2 ≤ a.2) ∧
      out.length ≤ limit := by
  cases hempty : ms.isEmpty with
  | true =>
    have hnil : ms = [] := List.isEmpty_iff.mp hempty
    subst hnil
    refine ⟨[], ?_, by simp, by simp, by simp, by simp⟩
    unfold searchMoviesByEmbedding
    rw [hm]
    rfl
  | false =>
    cases hide : ((ms.map matchKey).filter
        (fun s => decide (s ≠ ""))).isEmpty with
    | true =>
      exfalso
      obtain ⟨m0, hm0⟩ := List.exists_mem_of_ne_nil ms
        (by simpa using hempty)
      have hsome := hres m0 hm0
      rw [List.isEmpty_iff.mp hide] at hsome
      simp [getMoviesByIds, buildMovieMap, mapGet] at hsome
    | false =>
      have hspec := mergedResults_spec
        (buildMovieMap (getMoviesByIds store
          ((ms.map matchKey).filter (fun s => decide (s ≠ ""))))) ms limit
        hres (fun k mv h => mapGet_buildMovieMap_id _ _ _ h)
      exact ⟨_, searchMoviesByEmbedding_eq_main c store embedding limit ms
        hm hempty hide, hspec.1, hspec.2.1, hspec.2.2.1, hspec.2.2.2⟩

/-- Witness for C2: one movie owning three raw matches with scores
`1 - 1/10`, `1 - 3/10` and `1 - 1/20` (Chroma distances 1/10, 3/10,
1/20), so the single surviving entry carries the best score. -/
theorem searchMoviesByEmbedding_dedup_witness :
    ∃ out, searchMoviesByEmbedding
        ⟨none, none, some ⟨"u", "col",
          .ok ⟨some [["x", "y", "z"]],
            some [[1/10, 3/10, 1/20]],
            some [[⟨some "507f1f77bcf86cd799439011", none, none⟩,
              ⟨some "507f1f77bcf86cd799439011", none, none⟩,
              ⟨some "507f1f77bcf86cd799439011", none, none⟩]]⟩, .ok ()⟩⟩
        [⟨"507f1f77bcf86cd799439011", "A", [], [], none, none, none,
          none, none, none, [], []⟩]
        [1] 1 = .ok out ∧
      (out.map (fun p => p.1._id)).Nodup ∧
      (∀ p ∈ out,
        p.2 ∈ scoresFor
          [⟨"x", 1 - 1/10, ⟨some "507f1f77bcf86cd799439011", none, none⟩⟩,
            ⟨"y", 1 - 3/10, ⟨some "507f1f77bcf86cd799439011", none, none⟩⟩,
            ⟨"z", 1 - 1/20, ⟨some "507f1f77bcf86cd799439011", none, none⟩⟩]
          p.1._id ∧
        ∀ x ∈ scoresFor
          [⟨"x", 1 - 1/10, ⟨some "507f1f77bcf86cd799439011", none, none⟩⟩,
            ⟨"y", 1 - 3/10, ⟨some "507f1f77bcf86cd799439011", none, none⟩⟩,
            ⟨"z", 1 - 1/20, ⟨some "507f1f77bcf86cd799439011", none, none⟩⟩]
          p.1._id, x ≤ p.2) ∧
      out.Pairwise (fun a b => b.2 ≤ a.2) ∧
      out.length ≤ 1 :=
  searchMoviesByEmbedding_dedup _ _ [1] 1
    [⟨"x", 1 - 1/10, ⟨some "507f1f77bcf86cd799439011", none, none⟩⟩,
      ⟨"y", 1 - 3/10, ⟨some "507f1f77bcf86cd799439011", none, none⟩⟩,
      ⟨"z", 1 - 1/20, ⟨some "507f1f77bcf86cd799439011", none, none⟩⟩]
    rfl (by decide)

end AdvDb
